import Mathlib

/-!
Verification of the paper-fetching and merging scripts of the
rachel-new-website repository (src/get_papers.py, src/get_papers_merge.py).

Python strings are modelled as lists of characters (`Str`); the ASCII
fragment of the Python builtins `str.lower`, `str.strip`, `str.split` and
the `in` operator on strings is embedded explicitly below.
-/

/-- Python strings, modelled as lists of characters. -/
abbrev Str := List Char

/-- The whitespace characters stripped by Python str.strip
(space, tab, newline, carriage return, vertical tab, form feed). -/
def pyIsSpace (c : Char) : Bool :=
  c == ' ' || c == '\t' || c == '\n' || c == '\r' || c == '\x0b' || c == '\x0c'

/-- ASCII model of Python str.lower on a single character. -/
def lowerChar (c : Char) : Char :=
  match c with
  | 'A' => 'a' | 'B' => 'b' | 'C' => 'c' | 'D' => 'd' | 'E' => 'e' | 'F' => 'f'
  | 'G' => 'g' | 'H' => 'h' | 'I' => 'i' | 'J' => 'j' | 'K' => 'k' | 'L' => 'l'
  | 'M' => 'm' | 'N' => 'n' | 'O' => 'o' | 'P' => 'p' | 'Q' => 'q' | 'R' => 'r'
  | 'S' => 's' | 'T' => 't' | 'U' => 'u' | 'V' => 'v' | 'W' => 'w' | 'X' => 'x'
  | 'Y' => 'y' | 'Z' => 'z'
  | other => other

/-- Python str.lower (ASCII model). -/
def pyLower (s : Str) : Str := s.map lowerChar

/-- Python str.strip(): drop whitespace at both ends. -/
def pyStrip (s : Str) : Str :=
  (((s.dropWhile pyIsSpace).reverse.dropWhile pyIsSpace)).reverse

/-- Python `sub in s` (substring containment) as a Boolean. -/
def pyContainsSub (s sub : Str) : Bool :=
  match s with
  | [] => sub.isPrefixOf []
  | _ :: t => sub.isPrefixOf s || pyContainsSub t sub

/-- Python `":" in s`. -/
def hasColon (s : Str) : Bool := s.any (fun c => c == ':')

lemma lowerChar_eq_colon_iff (c : Char) : lowerChar c = ':' ↔ c = ':' := by
  unfold lowerChar
  split <;> first | rfl | decide

lemma pyIsSpace_lowerChar (c : Char) : pyIsSpace (lowerChar c) = pyIsSpace c := by
  unfold lowerChar
  split <;> first | rfl | decide

lemma beq_colon_lowerChar (c : Char) : (lowerChar c == ':') = (c == ':') := by
  by_cases h : c = ':'
  · subst h; rfl
  · have hl : lowerChar c ≠ ':' := fun hc => h ((lowerChar_eq_colon_iff c).mp hc)
    simp [h, hl]

lemma pyLower_append (s t : Str) : pyLower (s ++ t) = pyLower s ++ pyLower t := by
  simp [pyLower]

lemma dropWhile_pyIsSpace_pyLower (s : Str) :
    (pyLower s).dropWhile pyIsSpace = pyLower (s.dropWhile pyIsSpace) := by
  induction s with
  | nil => rfl
  | cons c cs ih =>
    simp only [pyLower, List.map_cons, List.dropWhile_cons, pyIsSpace_lowerChar]
    by_cases h : pyIsSpace c = true
    · simpa [h] using ih
    · simp [h, pyLower]

lemma pyStrip_pyLower (s : Str) : pyStrip (pyLower s) = pyLower (pyStrip s) := by
  unfold pyStrip
  rw [dropWhile_pyIsSpace_pyLower]
  have hrev : (pyLower (s.dropWhile pyIsSpace)).reverse
      = pyLower (s.dropWhile pyIsSpace).reverse := by
    simp [pyLower]
  rw [hrev, dropWhile_pyIsSpace_pyLower]
  simp [pyLower]

lemma takeWhile_ne_colon_pyLower (s : Str) :
    (pyLower s).takeWhile (fun c => c != ':') = pyLower (s.takeWhile (fun c => c != ':')) := by
  induction s with
  | nil => rfl
  | cons c cs ih =>
    simp only [pyLower, List.map_cons, List.takeWhile_cons, bne, beq_colon_lowerChar]
    by_cases h : (c == ':') = true
    · simp [h]
    · simp only [h]
      simp only [Bool.not_false, if_pos]
      simpa [pyLower] using ih

lemma hasColon_pyLower (s : Str) : hasColon (pyLower s) = hasColon s := by
  induction s with
  | nil => rfl
  | cons c cs ih =>
    simp only [hasColon, pyLower, List.map_cons, List.any_cons] at *
    rw [beq_colon_lowerChar, ih]

/-- Stripping is idempotent on the left pass. -/
lemma dropWhile_idem (p : Char → Bool) (s : Str) :
    (s.dropWhile p).dropWhile p = s.dropWhile p := by
  induction s with
  | nil => rfl
  | cons c cs ih =>
    by_cases h : p c = true
    · simpa [List.dropWhile_cons, h] using ih
    · simp [List.dropWhile_cons, h]

lemma head?_dropWhile_not (p : Char → Bool) (s : Str) :
    ∀ c, (s.dropWhile p).head? = some c → p c = false := by
  induction s with
  | nil => intro c h; simp at h
  | cons d ds ih =>
    intro c h
    by_cases hd : p d = true
    · exact ih c (by simpa [List.dropWhile_cons, hd] using h)
    · simp [List.dropWhile_cons, hd] at h
      subst h
      simpa using hd

lemma dropWhile_eq_self_of_head (p : Char → Bool) (s : Str)
    (h : ∀ c, s.head? = some c → p c = false) : s.dropWhile p = s := by
  cases s with
  | nil => rfl
  | cons c cs => simp [List.dropWhile_cons, h c rfl]

/-- The right-stripping pass, as used inside pyStrip. -/
def rstrip (s : Str) : Str := (s.reverse.dropWhile pyIsSpace).reverse

lemma pyStrip_eq_rstrip_dropWhile (s : Str) :
    pyStrip s = rstrip (s.dropWhile pyIsSpace) := rfl

lemma rstrip_idem (s : Str) : rstrip (rstrip s) = rstrip s := by
  unfold rstrip
  rw [List.reverse_reverse, dropWhile_idem]

lemma rstrip_pre (s : Str) : rstrip s <+: s := by
  have h : s.reverse.dropWhile pyIsSpace <:+ s.reverse := List.dropWhile_suffix pyIsSpace
  have h2 : (s.reverse.dropWhile pyIsSpace).reverse <+: s.reverse.reverse := by
    rw [← List.reverse_suffix] at *
    simpa using h
  simpa [rstrip] using h2

lemma head?_of_pre (s t : Str) (h : s <+: t) (hne : s ≠ []) : t.head? = s.head? := by
  rcases h with ⟨r, rfl⟩
  cases s with
  | nil => exact absurd rfl hne
  | cons c cs => simp

/-- pyStrip is idempotent. -/
lemma pyStrip_idem (s : Str) : pyStrip (pyStrip s) = pyStrip s := by
  rw [pyStrip_eq_rstrip_dropWhile, pyStrip_eq_rstrip_dropWhile]
  set u := s.dropWhile pyIsSpace with hu
  by_cases hv : rstrip u = []
  · rw [hv]; rfl
  · have hpre : rstrip u <+: u := rstrip_pre u
    have hhead : (rstrip u).dropWhile pyIsSpace = rstrip u := by
      apply dropWhile_eq_self_of_head
      intro c hc
      apply head?_dropWhile_not pyIsSpace s c
      rw [← hu, head?_of_pre _ _ hpre hv, hc]
    rw [hhead, rstrip_idem]

lemma mem_pyStrip (s : Str) (c : Char) (h : c ∈ pyStrip s) : c ∈ s := by
  unfold pyStrip at h
  rw [List.mem_reverse] at h
  have h2 := (List.dropWhile_suffix pyIsSpace).subset h
  rw [List.mem_reverse] at h2
  exact (List.dropWhile_suffix pyIsSpace).subset h2

/-! ## Data model: paper dicts and year groups -/

/-- An element of a raw authors list: a dict (whose "name" key may be
absent) or a plain string. -/
inductive AuthorItem where
  | adict (name : Option Str)
  | astr (s : Str)
deriving DecidableEq

/-- The authors field of a paper dict: either a plain string or a list. -/
inductive AuthorsField where
  | fstr (s : Str)
  | flist (l : List AuthorItem)
deriving DecidableEq

/-- A paper dict. Each field holds the value of the corresponding dict key,
`none` when the key is absent.  `show_` models the "show" key. -/
structure Paper where
  title : Option Str := none
  authors : Option AuthorsField := none
  venue : Option Str := none
  publicationVenue : Option Str := none
  year : Option Int := none
  publicationDate : Option Str := none
  url : Option Str := none
  openAccessPdfUrl : Option Str := none
  pdf : Option Str := none
  show_ : Option Bool := none
deriving DecidableEq

/-- A year group of the persisted dataset: {"year": ..., "papers": [...]}. -/
structure YearGroup where
  year : Int
  papers : List Paper
deriving DecidableEq

/-! ## normalize_title, get_first_author, create_paper_signature
(identical in src/get_papers.py and src/get_papers_merge.py) -/

/-- normalize_title: when the title contains a colon, keep the text before
the first colon, stripped (Python: title.split(":")[0].strip(); the
len(parts) >= 2 guard always holds when ":" is in the title); otherwise
the stripped title. -/
def normalize_title (title : Str) : Str :=
  if hasColon title then pyStrip (title.takeWhile (fun c => c != ':'))
  else pyStrip title

/-- get_first_author: empty for a falsy authors value; the first element
name (dict) or the element itself (string) for a list; the stripped text
before the first comma for a string. -/
def get_first_author (authors : AuthorsField) : Str :=
  match authors with
  | .flist [] => []
  | .flist (.adict name :: _) => name.getD []
  | .flist (.astr s :: _) => s
  | .fstr [] => []
  | .fstr s => pyStrip (s.takeWhile (fun c => c != ','))

/-- create_paper_signature: lowercased normalized title, an underscore, and
the lowercased first author. -/
def create_paper_signature (paper : Paper) : Str :=
  let title := normalize_title (paper.title.getD [])
  let first_author := get_first_author ((paper.authors).getD (.fstr []))
  pyLower title ++ '_' :: pyLower first_author

/-! ## is_duplicate and select_best_paper (src/get_papers.py) -/

/-- Python re.sub applied in is_duplicate: deletes a leading
"one-or-more non-colon characters, a colon, then whitespace" when the
string matches that pattern, and returns the string unchanged otherwise. -/
def subColonPrefix (s : Str) : Str :=
  let pre := s.takeWhile (fun c => c != ':')
  if pre ≠ [] ∧ hasColon s = true then (s.drop (pre.length + 1)).dropWhile pyIsSpace
  else s

/-- is_duplicate: rule 1 (equal lowercased normalized titles), rule 2
(equal lowercased titles after a second colon-prefix-stripping pass, when
both titles are nonempty), rule 3 (equal nonempty lowercased first authors
and one lowercased title a substring of the other). -/
def is_duplicate (paper1 paper2 : Paper) : Bool :=
  let title1 := normalize_title ((paper1.title).getD [])
  let title2 := normalize_title ((paper2.title).getD [])
  if pyLower title1 == pyLower title2 then true
  else if title1 != [] && title2 != []
      && (pyLower (pyStrip (subColonPrefix title1)) == pyLower (pyStrip (subColonPrefix title2))) then
    true
  else
    let author1 := get_first_author ((paper1.authors).getD (.fstr []))
    let author2 := get_first_author ((paper2.authors).getD (.fstr []))
    if author1 != [] && author2 != [] && (pyLower author1 == pyLower author2)
        && (pyContainsSub (pyLower title2) (pyLower title1)
            || pyContainsSub (pyLower title1) (pyLower title2)) then
      true
    else false

def arxivChars : Str := ("arxiv").toList

def preprintChars : Str := ("preprint").toList

/-- The venue test used by select_best_paper: the lowercased venue contains
neither "arxiv" nor "preprint". -/
def isNonArxiv (p : Paper) : Bool :=
  !(pyContainsSub (pyLower ((p.venue).getD [])) arxivChars)
    && !(pyContainsSub (pyLower ((p.venue).getD [])) preprintChars)

/-- select_best_paper: the empty dict on an empty list; otherwise the first
entry whose venue is not arXiv-like, and the first entry overall when every
venue is arXiv-like. -/
def select_best_paper (duplicates : List Paper) : Paper :=
  match duplicates with
  | [] => {}
  | d0 :: _ =>
    match duplicates.filter isNonArxiv with
    | p :: _ => p
    | [] => d0

/-! ## Lemmas about title normalization -/

lemma mem_takeWhile_ne_colon (t : Str) (c : Char) (h : c ∈ t.takeWhile (fun c => c != ':')) :
    ¬(c = ':') := by
  have := List.mem_takeWhile_imp h
  simpa using this

lemma hasColon_eq_false_iff (s : Str) : hasColon s = false ↔ ∀ c ∈ s, ¬(c = ':') := by
  simp [hasColon]

lemma hasColon_normalize_title (t : Str) : hasColon (normalize_title t) = false := by
  unfold normalize_title
  split
  · rw [hasColon_eq_false_iff]
    intro c hc
    exact mem_takeWhile_ne_colon t c (mem_pyStrip _ c hc)
  · rename_i h
    rw [Bool.not_eq_true] at h
    rw [hasColon_eq_false_iff] at h ⊢
    intro c hc
    exact h c (mem_pyStrip _ c hc)

lemma pyStrip_normalize_title (t : Str) : pyStrip (normalize_title t) = normalize_title t := by
  unfold normalize_title
  split
  · exact pyStrip_idem _
  · exact pyStrip_idem _

/-- C8: applying normalize_title twice yields the same text as applying it once. -/
theorem normalize_title_idem (t : Str) :
    normalize_title (normalize_title t) = normalize_title t := by
  have h := hasColon_normalize_title t
  nth_rewrite 1 [normalize_title]
  rw [h]
  simp only [Bool.false_eq_true, if_false]
  exact pyStrip_normalize_title t

lemma normalize_title_pyLower (t : Str) :
    normalize_title (pyLower t) = pyLower (normalize_title t) := by
  unfold normalize_title
  rw [hasColon_pyLower]
  split
  · rw [takeWhile_ne_colon_pyLower, pyStrip_pyLower]
  · rw [pyStrip_pyLower]

/-- C2: papers whose normalized titles agree case-insensitively are judged
duplicates by is_duplicate; in particular papers with identical raw titles
(case-insensitive) are duplicates regardless of their authors. -/
theorem is_duplicate_of_title_match (p1 p2 : Paper)
    (h : pyLower (normalize_title ((p1.title).getD []))
          = pyLower (normalize_title ((p2.title).getD []))
        ∨ pyLower ((p1.title).getD []) = pyLower ((p2.title).getD [])) :
    is_duplicate p1 p2 = true := by
  have hn : pyLower (normalize_title ((p1.title).getD []))
      = pyLower (normalize_title ((p2.title).getD [])) := by
    rcases h with h | h
    · exact h
    · rw [← normalize_title_pyLower, ← normalize_title_pyLower, h]
  simp only [is_duplicate]
  rw [hn]
  simp

/-- Witness for C2 at concrete papers with identical raw titles up to case
and different authors. -/
theorem is_duplicate_of_title_match_witness :
    is_duplicate
      { title := some (("Event Extraction").toList),
        authors := some (.fstr (("Jane Doe").toList)) }
      { title := some (("EVENT extraction").toList),
        authors := some (.fstr (("John Smith").toList)) } = true := by
  apply is_duplicate_of_title_match
  right
  decide

/-- The simpler duplicate predicate the claim describes: rule 1 (equal
lowercased normalized titles) or rule 3 (equal nonempty lowercased first
authors and one lowercased normalized title a substring of the other). -/
def is_duplicate_simple (paper1 paper2 : Paper) : Bool :=
  let title1 := normalize_title ((paper1.title).getD [])
  let title2 := normalize_title ((paper2.title).getD [])
  if pyLower title1 == pyLower title2 then true
  else
    let author1 := get_first_author ((paper1.authors).getD (.fstr []))
    let author2 := get_first_author ((paper2.authors).getD (.fstr []))
    if author1 != [] && author2 != [] && (pyLower author1 == pyLower author2)
        && (pyContainsSub (pyLower title2) (pyLower title1)
            || pyContainsSub (pyLower title1) (pyLower title2)) then
      true
    else false

lemma subColonPrefix_normalize_title (t : Str) :
    subColonPrefix (normalize_title t) = normalize_title t := by
  unfold subColonPrefix
  rw [hasColon_normalize_title]
  simp

lemma clean_pass_normalize_title (t : Str) :
    pyStrip (subColonPrefix (normalize_title t)) = normalize_title t := by
  rw [subColonPrefix_normalize_title, pyStrip_normalize_title]

/-- C9: the second prefix-stripping pass of is_duplicate leaves normalized
titles unchanged, so is_duplicate agrees with the simpler predicate made of
rules 1 and 3 alone. -/
theorem is_duplicate_eq_simple :
    (∀ t : Str, pyStrip (subColonPrefix (normalize_title t)) = normalize_title t)
    ∧ ∀ p1 p2 : Paper, is_duplicate p1 p2 = is_duplicate_simple p1 p2 := by
  refine ⟨clean_pass_normalize_title, fun p1 p2 => ?_⟩
  simp only [is_duplicate, is_duplicate_simple]
  rw [clean_pass_normalize_title, clean_pass_normalize_title]
  by_cases h1 : (pyLower (normalize_title ((p1.title).getD []))
      == pyLower (normalize_title ((p2.title).getD []))) = true
  · simp [h1]
  · rw [Bool.not_eq_true] at h1
    rw [h1]
    simp

/-- C5 (part 2 helper): find? is the head of filter. -/
lemma find?_eq_head?_filter {α : Type} (p : α → Bool) (l : List α) :
    l.find? p = (l.filter p).head? := by
  induction l with
  | nil => rfl
  | cons a as ih =>
    by_cases h : p a = true
    · simp [List.find?_cons, List.filter_cons, h]
    · simp only [List.find?_cons, List.filter_cons, h]
      simpa [h] using ih

/-- C5: the two Event Extraction papers are judged duplicates, and
select_best_paper picks the first candidate whose venue is free of
"arxiv"/"preprint" (case-insensitively), falling back to the first
candidate. -/
theorem event_extraction_dup_and_selection :
    is_duplicate
        { title := some (("Event Extraction: A New Benchmark").toList),
          year := some 2021,
          authors := some (.flist [.adict (some (("A. Smith").toList))]) }
        { title := some (("Event Extraction").toList),
          venue := some (("arXiv").toList),
          authors := some (.flist [.adict (some (("A. Smith").toList))]) } = true
    ∧ ∀ (hd : Paper) (tl : List Paper),
        select_best_paper (hd :: tl) = (((hd :: tl).find? isNonArxiv).getD hd) := by
  constructor
  · decide
  · intro hd tl
    unfold select_best_paper
    rw [find?_eq_head?_filter]
    cases hfil : (hd :: tl).filter isNonArxiv with
    | nil => simp
    | cons q qs => simp

/-! ## Python dict with Int keys (insertion-ordered association list) -/

/-- Membership test for a dict key. -/
def dictMem (d : List (Int × List Paper)) (k : Int) : Bool :=
  d.any (fun e => e.1 == k)

/-- Lookup of a dict key. -/
def dictGet? (d : List (Int × List Paper)) (k : Int) : Option (List Paper) :=
  (d.find? (fun e => e.1 == k)).map (fun e => e.2)

/-- Assignment d[k] = v: updates the entry in place when the key exists,
appends a new entry otherwise (Python dicts preserve insertion order). -/
def dictSet (d : List (Int × List Paper)) (k : Int) (v : List Paper) :
    List (Int × List Paper) :=
  if dictMem d k then d.map (fun e => if e.1 == k then (k, v) else e)
  else d ++ [(k, v)]

/-- The key sequence of a dict, in insertion order. -/
def dictKeys (d : List (Int × List Paper)) : List Int := d.map (fun e => e.1)

/-- Python sorted(keys, reverse=True). -/
def sortedDesc (l : List Int) : List Int := List.insertionSort (fun a b => a ≥ b) l

/-- A string-keyed mapping table with get(key, default) lookup. -/
def strMapGetD (m : List (Str × Str)) (k dflt : Str) : Str :=
  match m.find? (fun e => e.1 == k) with
  | some e => e.2
  | none => dflt

/-- Python set.add on the signature sets (sets are modelled as
duplicate-free lists; only membership is ever queried). -/
def setAdd (s : List Str) (x : Str) : List Str := if x ∈ s then s else x :: s

/-! ## Signature sets (src/get_papers_merge.py) -/

/-- The body of the signature-collection loops: compute the signature and
add it to the set when it is non-empty. -/
def addPaperSignature (acc : List Str) (paper : Paper) : List Str :=
  let signature := create_paper_signature paper
  if signature ≠ [] then setAdd acc signature else acc

/-- get_existing_paper_signatures: the signatures of all papers of all
year groups. -/
def get_existing_paper_signatures (existing_papers : List YearGroup) : List Str :=
  existing_papers.foldl (fun acc yd => yd.papers.foldl addPaperSignature acc) []

/-- One step of the hidden-signature collection: record the signature only
when the show key is exactly False. -/
def addHiddenSignature (acc : List Str) (p : Paper) : List Str :=
  if p.show_ == some false then addPaperSignature acc p else acc

/-- The hidden-signature collection of merge_new_papers: signatures of
papers whose show key is exactly False. -/
def hidden_signatures (existing_papers : List YearGroup) : List Str :=
  existing_papers.foldl (fun acc yd => yd.papers.foldl addHiddenSignature acc) []

/-! ## Year parsing (datetime.fromisoformat model) -/

/-- Python s.replace("Z", "+00:00"). -/
def replaceZ (s : Str) : Str :=
  s.flatMap (fun c => if c = 'Z' then ("+00:00").toList else [c])

/-- Numeric value of a digit string. -/
def digitsToNat (s : Str) : Nat := s.foldl (fun n c => 10 * n + (c.toNat - 48)) 0

def isLeapYear (y : Nat) : Bool := (y % 4 == 0 && y % 100 != 0) || (y % 400 == 0)

def daysInMonth (y m : Nat) : Nat :=
  if m = 2 then (if isLeapYear y then 29 else 28)
  else if m = 4 ∨ m = 6 ∨ m = 9 ∨ m = 11 then 30 else 31

/-- A UTC-offset suffix of the form +HH:MM or -HH:MM (or nothing). -/
def offsetOk (t : Str) : Bool :=
  match t with
  | [] => true
  | sgn :: h1 :: h2 :: ':' :: m1 :: m2 :: [] =>
    (sgn == '+' || sgn == '-') && [h1, h2, m1, m2].all Char.isDigit
      && digitsToNat [h1, h2] < 24 && digitsToNat [m1, m2] < 60
  | _ => false

/-- A time-of-day part HH:MM[:SS][offset].  Fractional seconds and other
rarely used ISO forms are not modelled; the scripts only ever receive
date-only values from the API. -/
def timeOk (t : Str) : Bool :=
  match t with
  | h1 :: h2 :: ':' :: m1 :: m2 :: rest =>
    ([h1, h2, m1, m2].all Char.isDigit && digitsToNat [h1, h2] < 24
        && digitsToNat [m1, m2] < 60)
      && (match rest with
          | [] => true
          | ':' :: s1 :: s2 :: off =>
            [s1, s2].all Char.isDigit && digitsToNat [s1, s2] < 60 && offsetOk off
          | _ => false)
  | _ => false

/-- Model of datetime.fromisoformat(s).year: an ISO date YYYY-MM-DD with a
valid calendar date and year at least 1, optionally followed by a
separator and a valid time-of-day part; none when parsing fails. -/
def fromisoformat_year (s : Str) : Option Int :=
  match s with
  | y1 :: y2 :: y3 :: y4 :: '-' :: m1 :: m2 :: '-' :: d1 :: d2 :: rest =>
    if [y1, y2, y3, y4, m1, m2, d1, d2].all Char.isDigit then
      if 1 ≤ digitsToNat [y1, y2, y3, y4] ∧ 1 ≤ digitsToNat [m1, m2]
          ∧ digitsToNat [m1, m2] ≤ 12 ∧ 1 ≤ digitsToNat [d1, d2]
          ∧ digitsToNat [d1, d2]
              ≤ daysInMonth (digitsToNat [y1, y2, y3, y4]) (digitsToNat [m1, m2]) then
        match rest with
        | [] => some ((digitsToNat [y1, y2, y3, y4] : Int))
        | _ :: t => if timeOk t then some ((digitsToNat [y1, y2, y3, y4] : Int)) else none
      else none
    else none
  | _ => none

/-! ## format_paper_for_yaml (src/get_papers_merge.py) -/

/-- Python truthiness of the year value (None and 0 are falsy). -/
def yearIsFalsy (y : Option Int) : Bool :=
  match y with
  | none => true
  | some v => v == 0

/-- The author-name formatting loop: dict items contribute their mapped
name when it is non-empty (items without a name key are skipped); string
items contribute their mapped value unconditionally.  A string-valued
authors field is iterated character by character, as Python does. -/
def formatAuthorsList (author_name_mapping : List (Str × Str)) :
    AuthorsField → List Str
  | .flist items =>
    items.foldr
      (fun a acc =>
        match a with
        | .adict (some name) =>
          let n := strMapGetD author_name_mapping name name
          if n ≠ [] then n :: acc else acc
        | .adict none => acc
        | .astr s => strMapGetD author_name_mapping s s :: acc) []
  | .fstr s => s.foldr (fun c acc => strMapGetD author_name_mapping [c] [c] :: acc) []

/-- The year parsed from publicationDate in format_paper_for_yaml: none
for an absent or falsy publicationDate (the guard before the try block) or
on a parse failure (the except branch). -/
def year_from_publication_date (paper : Paper) : Option Int :=
  match paper.publicationDate with
  | none => none
  | some pd => if pd = [] then none else fromisoformat_year (replaceZ pd)

/-- The year value after the fallback to the raw year field
(`if not year and paper.get("year"): year = paper["year"]`). -/
def format_year_value (paper : Paper) : Option Int :=
  if yearIsFalsy (year_from_publication_date paper) && !(yearIsFalsy paper.year) then
    paper.year
  else year_from_publication_date paper

/-- format_paper_for_yaml: resolve the year (publicationDate first, then
the year field, dropping the paper when both are falsy), the mapped venue,
the joined author names, the pdf link, and default show to True. -/
def format_paper_for_yaml (paper : Paper)
    (venue_mapping author_name_mapping : List (Str × Str)) : Option (Paper × Int) :=
  let year : Option Int := format_year_value paper
  if yearIsFalsy year then none
  else
    let venue :=
      if (paper.venue).getD [] ≠ [] then (paper.venue).getD []
      else (paper.publicationVenue).getD []
    let mapped_venue : Option Str :=
      if venue ≠ [] ∧ venue ≠ ("null").toList then
        some (strMapGetD venue_mapping venue venue)
      else none
    let authors_list := formatAuthorsList author_name_mapping ((paper.authors).getD (.flist []))
    let authorsStr : Str :=
      if authors_list = [] then [] else List.intercalate ((", ").toList) authors_list
    let pdf_url : Option Str :=
      if (paper.openAccessPdfUrl).getD [] ≠ [] then some ((paper.openAccessPdfUrl).getD [])
      else if (paper.url).getD [] ≠ [] then
        (if ((".pdf").toList).isSuffixOf ((paper.url).getD [])
            || pyContainsSub ((paper.url).getD []) (("arxiv.org/pdf").toList) then
          some ((paper.url).getD [])
        else none)
      else none
    some ({ title := some ((paper.title).getD []),
            authors := some (.fstr authorsStr),
            venue := mapped_venue,
            pdf := pdf_url,
            show_ := some true },
          (year.getD 0))

/-! ## merge_new_papers and mark_paper_as_hidden (src/get_papers_merge.py) -/

/-- One iteration of the merge loop: skip unformattable papers, skip
signatures already seen or hidden, otherwise append to the year bucket
(created when absent), record the signature and count the addition. -/
def mergeStep (venue_mapping author_name_mapping : List (Str × Str))
    (hidden : List Str) (st : List (Int × List Paper) × List Str × Nat)
    (paper : Paper) : List (Int × List Paper) × List Str × Nat :=
  match format_paper_for_yaml paper venue_mapping author_name_mapping with
  | none => st
  | some (formatted_paper, year) =>
    let signature := create_paper_signature formatted_paper
    if signature ∈ st.2.1 ∨ signature ∈ hidden then st
    else
      let d0 := st.1
      let d1 := if dictMem d0 year then d0 else dictSet d0 year []
      let d2 := dictSet d1 year ((dictGet? d1 year).getD [] ++ [formatted_paper])
      (d2, setAdd st.2.1 signature, st.2.2 + 1)

/-- The existing_by_year dict built from the persisted year groups. -/
def buildByYear (existing_papers : List YearGroup) : List (Int × List Paper) :=
  existing_papers.foldl (fun d yd => dictSet d yd.year yd.papers) []

/-- merge_new_papers: add the truly new papers to the per-year dict, then
emit the year groups sorted by year descending along with the addition
count. -/
def merge_new_papers (existing_papers : List YearGroup) (new_papers : List Paper)
    (venue_mapping author_name_mapping : List (Str × Str)) : List YearGroup × Nat :=
  let existing_signatures := get_existing_paper_signatures existing_papers
  let hidden := hidden_signatures existing_papers
  let st := new_papers.foldl (mergeStep venue_mapping author_name_mapping hidden)
      (buildByYear existing_papers, existing_signatures, 0)
  let merged := (sortedDesc (dictKeys st.1)).map
      (fun year => YearGroup.mk year ((dictGet? st.1 year).getD []))
  (merged, st.2.2)

/-- The inner loop of mark_paper_as_hidden over one group's papers: set
show to False on the first signature match and stop. -/
def markPapers (target_signature : Str) : List Paper → List Paper × Bool
  | [] => ([], false)
  | p :: ps =>
    if create_paper_signature p == target_signature then
      ({ p with show_ := some false } :: ps, true)
    else
      let r := markPapers target_signature ps
      (p :: r.1, r.2)

/-- The outer loop of mark_paper_as_hidden over the year groups. -/
def markGroups (target_signature : Str) : List YearGroup → List YearGroup × Bool
  | [] => ([], false)
  | g :: gs =>
    let r := markPapers target_signature g.papers
    if r.2 then ({ g with papers := r.1 } :: gs, true)
    else
      let r2 := markGroups target_signature gs
      (g :: r2.1, r2.2)

/-- mark_paper_as_hidden: build the target signature from the given title
and optional first author (None becomes "") and hide the first matching
paper, reporting whether one was found. -/
def mark_paper_as_hidden (papers_data : List YearGroup) (title : Str)
    (first_author : Option Str) : List YearGroup × Bool :=
  let target_signature := create_paper_signature
      { title := some title, authors := some (.fstr (first_author.getD [])) }
  markGroups target_signature papers_data

/-! ## Properties of mark_paper_as_hidden -/

/-- The target signature computed by mark_paper_as_hidden. -/
def target_signature_of (title : Str) (first_author : Option Str) : Str :=
  create_paper_signature
    { title := some title, authors := some (.fstr (first_author.getD [])) }

lemma mark_paper_as_hidden_eq (d : List YearGroup) (title : Str) (a : Option Str) :
    mark_paper_as_hidden d title a = markGroups (target_signature_of title a) d := rfl

lemma create_paper_signature_show (p : Paper) (b : Option Bool) :
    create_paper_signature { p with show_ := b } = create_paper_signature p := rfl

lemma markPapers_false (t : Str) (ps : List Paper) (h : (markPapers t ps).2 = false) :
    (markPapers t ps).1 = ps ∧ ∀ p ∈ ps, create_paper_signature p ≠ t := by
  induction ps with
  | nil => exact ⟨rfl, by simp⟩
  | cons p ps ih =>
    by_cases hp : (create_paper_signature p == t) = true
    · rw [markPapers, if_pos hp] at h
      simp at h
    · rw [markPapers, if_neg hp] at h ⊢
      obtain ⟨h1, h2⟩ := ih h
      refine ⟨by simp [h1], ?_⟩
      intro q hq
      rcases List.mem_cons.mp hq with rfl | hq
      · simpa using hp
      · exact h2 q hq

lemma markPapers_found (t : Str) (ps : List Paper) (h : (markPapers t ps).2 = true) :
    ∃ pre p post, ps = pre ++ p :: post
      ∧ (∀ q ∈ pre, create_paper_signature q ≠ t)
      ∧ create_paper_signature p = t
      ∧ (markPapers t ps).1 = pre ++ { p with show_ := some false } :: post := by
  induction ps with
  | nil => simp [markPapers] at h
  | cons p ps ih =>
    by_cases hp : (create_paper_signature p == t) = true
    · refine ⟨[], p, ps, rfl, by simp, by simpa using hp, ?_⟩
      rw [markPapers, if_pos hp]
      simp
    · rw [markPapers, if_neg hp] at h ⊢
      obtain ⟨pre, q, post, hsplit, hpre, hq, hout⟩ := ih h
      refine ⟨p :: pre, q, post, by simp [hsplit], ?_, hq, ?_⟩
      · intro r hr
        rcases List.mem_cons.mp hr with rfl | hr
        · simpa using hp
        · exact hpre r hr
      · simpa using hout

lemma markGroups_false (t : Str) (gs : List YearGroup) (h : (markGroups t gs).2 = false) :
    (markGroups t gs).1 = gs
      ∧ ∀ g ∈ gs, ∀ p ∈ g.papers, create_paper_signature p ≠ t := by
  induction gs with
  | nil => exact ⟨rfl, by simp⟩
  | cons g gs ih =>
    by_cases hg : (markPapers t g.papers).2 = true
    · rw [markGroups, if_pos hg] at h
      simp at h
    · rw [markGroups, if_neg hg] at h ⊢
      obtain ⟨h1, h2⟩ := ih h
      obtain ⟨_, hnone⟩ := markPapers_false t g.papers (Bool.eq_false_iff.mpr hg)
      refine ⟨by simp [h1], ?_⟩
      intro g' hg' p hp
      rcases List.mem_cons.mp hg' with rfl | hg'
      · exact hnone p hp
      · exact h2 g' hg' p hp

lemma markGroups_found (t : Str) (gs : List YearGroup) (h : (markGroups t gs).2 = true) :
    ∃ gpre g gpost ppre p ppost,
      gs = gpre ++ g :: gpost
      ∧ g.papers = ppre ++ p :: ppost
      ∧ (∀ g' ∈ gpre, ∀ q ∈ g'.papers, create_paper_signature q ≠ t)
      ∧ (∀ q ∈ ppre, create_paper_signature q ≠ t)
      ∧ create_paper_signature p = t
      ∧ (markGroups t gs).1
          = gpre ++ ({ g with papers := ppre ++ { p with show_ := some false } :: ppost }) :: gpost := by
  induction gs with
  | nil => simp [markGroups] at h
  | cons g gs ih =>
    by_cases hg : (markPapers t g.papers).2 = true
    · obtain ⟨pre, p, post, hsplit, hpre, hp, hout⟩ := markPapers_found t g.papers hg
      refine ⟨[], g, gs, pre, p, post, rfl, hsplit, by simp, hpre, hp, ?_⟩
      rw [markGroups, if_pos hg, hout]
      rfl
    · rw [markGroups, if_neg hg] at h ⊢
      obtain ⟨gpre, g0, gpost, ppre, p, ppost, hs, hps, hgpre, hppre, hp, hout⟩ := ih h
      obtain ⟨_, hnone⟩ := markPapers_false t g.papers (Bool.eq_false_iff.mpr hg)
      refine ⟨g :: gpre, g0, gpost, ppre, p, ppost, by simp [hs], hps, ?_, hppre, hp, ?_⟩
      · intro g' hg' q hq
        rcases List.mem_cons.mp hg' with rfl | hg'
        · exact hnone q hq
        · exact hgpre g' hg' q hq
      · simpa using hout

/-- C7: when the dataset holds a paper matching the target signature,
mark_paper_as_hidden reports true and the output holds a matching paper
with show set to False; when no paper matches, it reports false and
returns the dataset entirely unchanged. -/
theorem mark_paper_as_hidden_found_or_not (d : List YearGroup) (title : Str)
    (author : Option Str) :
    ((∃ g ∈ d, ∃ p ∈ g.papers,
        create_paper_signature p = target_signature_of title author) →
      (mark_paper_as_hidden d title author).2 = true
      ∧ ∃ g ∈ (mark_paper_as_hidden d title author).1, ∃ p ∈ g.papers,
          create_paper_signature p = target_signature_of title author
          ∧ p.show_ = some false)
    ∧ ((∀ g ∈ d, ∀ p ∈ g.papers,
        create_paper_signature p ≠ target_signature_of title author) →
      mark_paper_as_hidden d title author = (d, false)) := by
  rw [mark_paper_as_hidden_eq]
  set t := target_signature_of title author with ht
  constructor
  · intro hex
    have hfound : (markGroups t d).2 = true := by
      by_contra hfalse
      obtain ⟨_, hnone⟩ := markGroups_false t d (Bool.eq_false_iff.mpr hfalse)
      obtain ⟨g, hg, p, hp, hsig⟩ := hex
      exact hnone g hg p hp hsig
    refine ⟨hfound, ?_⟩
    obtain ⟨gpre, g, gpost, ppre, p, ppost, _, _, _, _, hp, hout⟩ :=
      markGroups_found t d hfound
    refine ⟨_, by rw [hout]; exact List.mem_append_right _ (List.mem_cons_self _ _), ?_⟩
    refine ⟨{ p with show_ := some false }, ?_, ?_, rfl⟩
    · exact List.mem_append_right _ (List.mem_cons_self _ _)
    · rw [create_paper_signature_show]
      exact hp
  · intro hnone
    cases hfound : (markGroups t d).2 with
    | false =>
      obtain ⟨h1, _⟩ := markGroups_false t d hfound
      rw [Prod.ext_iff]
      exact ⟨h1, hfound⟩
    | true =>
      obtain ⟨gpre, g, gpost, ppre, p, ppost, hs, hps, _, _, hp, _⟩ :=
        markGroups_found t d hfound
      exact absurd hp (hnone g (by rw [hs]; exact List.mem_append_right _ (List.mem_cons_self _ _)) p
        (by rw [hps]; exact List.mem_append_right _ (List.mem_cons_self _ _)))

/-- Witness for C7 on a concrete two-group dataset with a match. -/
theorem mark_paper_as_hidden_found_or_not_witness :
    (mark_paper_as_hidden
        [⟨2021, [{ title := some (("Other").toList),
                   authors := some (.fstr (("Ann B").toList)) }]⟩,
         ⟨2020, [{ title := some (("Some Title").toList),
                   authors := some (.fstr (("Jane Doe, Tom R").toList)) }]⟩]
        (("Some Title").toList) (some (("Jane Doe").toList))).2 = true
    ∧ ∃ g ∈ (mark_paper_as_hidden
        [⟨2021, [{ title := some (("Other").toList),
                   authors := some (.fstr (("Ann B").toList)) }]⟩,
         ⟨2020, [{ title := some (("Some Title").toList),
                   authors := some (.fstr (("Jane Doe, Tom R").toList)) }]⟩]
        (("Some Title").toList) (some (("Jane Doe").toList))).1, ∃ p ∈ g.papers,
        create_paper_signature p
          = target_signature_of (("Some Title").toList) (some (("Jane Doe").toList))
        ∧ p.show_ = some false := by
  apply (mark_paper_as_hidden_found_or_not _ _ _).1
  refine ⟨_, List.mem_cons_of_mem _ (List.mem_cons_self _ _), ?_⟩
  refine ⟨_, List.mem_cons_self _ _, ?_⟩
  decide

/-- C10: when mark_paper_as_hidden reports a find, the dataset decomposes
around the first matching paper in scan order: every earlier group and
every earlier paper of the match group misses the target signature, and
the output is identical except that this single paper has show set to
False. -/
theorem mark_paper_as_hidden_single_update (d df : List YearGroup) (title : Str)
    (author : Option Str) (h : mark_paper_as_hidden d title author = (df, true)) :
    ∃ gpre g gpost ppre p ppost,
      d = gpre ++ g :: gpost
      ∧ g.papers = ppre ++ p :: ppost
      ∧ (∀ g' ∈ gpre, ∀ q ∈ g'.papers,
          create_paper_signature q ≠ target_signature_of title author)
      ∧ (∀ q ∈ ppre, create_paper_signature q ≠ target_signature_of title author)
      ∧ create_paper_signature p = target_signature_of title author
      ∧ df = gpre
          ++ ({ g with papers := ppre ++ { p with show_ := some false } :: ppost }) :: gpost := by
  rw [mark_paper_as_hidden_eq] at h
  have h2 : (markGroups (target_signature_of title author) d).2 = true := by
    rw [h]
  obtain ⟨gpre, g, gpost, ppre, p, ppost, hs, hps, hgpre, hppre, hp, hout⟩ :=
    markGroups_found _ d h2
  rw [h] at hout
  exact ⟨gpre, g, gpost, ppre, p, ppost, hs, hps, hgpre, hppre, hp, hout⟩

/-- Witness for C10 on a dataset holding two papers with the target
signature: only the first one in scan order is hidden. -/
theorem mark_paper_as_hidden_single_update_witness :
    ∃ gpre g gpost ppre p ppost,
      ([⟨2022, [{ title := some (("X").toList),
                  authors := some (.fstr (("Someone Else").toList)) },
                { title := some (("Some Title").toList),
                  authors := some (.fstr (("Jane Doe").toList)) }]⟩,
        ⟨2021, [{ title := some (("Some Title: Subtitle").toList),
                  authors := some (.fstr (("Jane Doe, K").toList)) }]⟩]
        : List YearGroup) = gpre ++ g :: gpost
      ∧ g.papers = ppre ++ p :: ppost
      ∧ (∀ g' ∈ gpre, ∀ q ∈ g'.papers, create_paper_signature q
          ≠ target_signature_of (("Some Title").toList) (some (("Jane Doe").toList)))
      ∧ (∀ q ∈ ppre, create_paper_signature q
          ≠ target_signature_of (("Some Title").toList) (some (("Jane Doe").toList)))
      ∧ create_paper_signature p
          = target_signature_of (("Some Title").toList) (some (("Jane Doe").toList))
      ∧ ([⟨2022, [{ title := some (("X").toList),
                    authors := some (.fstr (("Someone Else").toList)) },
                  { title := some (("Some Title").toList),
                    authors := some (.fstr (("Jane Doe").toList)),
                    show_ := some false }]⟩,
          ⟨2021, [{ title := some (("Some Title: Subtitle").toList),
                    authors := some (.fstr (("Jane Doe, K").toList)) }]⟩]
          : List YearGroup)
          = gpre ++ ({ g with papers := ppre ++ { p with show_ := some false } :: ppost }) :: gpost :=
  mark_paper_as_hidden_single_update _ _ _ _ (by decide)

/-! ## C6: year resolution -/

/-- The year-resolution rule in the words of the claim: the year parsed
from publicationDate when that parse succeeds, the raw year field
otherwise; absent exactly when neither yields a year. -/
def claimed_resolved_year (paper : Paper) : Option Int :=
  match paper.publicationDate with
  | some pd =>
    (match fromisoformat_year (replaceZ pd) with
     | some y => some y
     | none => paper.year)
  | none => paper.year

lemma fromisoformat_year_pos (s : Str) (y : Int) (h : fromisoformat_year s = some y) :
    1 ≤ y := by
  unfold fromisoformat_year at h
  split at h
  · split at h
    · split at h
      · rename_i hrange
        split at h
        · injection h with h
          subst h
          exact_mod_cast hrange.1
        · split at h
          · injection h with h
            subst h
            exact_mod_cast hrange.1
          · exact absurd h (by simp)
      · exact absurd h (by simp)
    · exact absurd h (by simp)
  · exact absurd h (by simp)

lemma year_from_publication_date_pos (paper : Paper) (y : Int)
    (h : year_from_publication_date paper = some y) : 1 ≤ y := by
  unfold year_from_publication_date at h
  split at h
  · exact absurd h (by simp)
  · split at h
    · exact absurd h (by simp)
    · exact fromisoformat_year_pos _ y h

lemma claimed_resolved_year_eq (paper : Paper) :
    claimed_resolved_year paper
      = match year_from_publication_date paper with
        | some y => some y
        | none => paper.year := by
  unfold claimed_resolved_year year_from_publication_date
  cases hpd : paper.publicationDate with
  | none => rfl
  | some pd =>
    by_cases h : pd = []
    · subst h; rfl
    · simp [h]

lemma format_paper_for_yaml_none_iff (paper : Paper) (vm am : List (Str × Str)) :
    format_paper_for_yaml paper vm am = none
      ↔ yearIsFalsy (format_year_value paper) = true := by
  simp only [format_paper_for_yaml]
  split_ifs with h
  · simp [h]
  · simp [h]

lemma format_paper_for_yaml_some_year (paper : Paper) (vm am : List (Str × Str))
    (fp : Paper) (y : Int) (h : format_paper_for_yaml paper vm am = some (fp, y)) :
    format_year_value paper = some y ∧ y ≠ 0 := by
  have hfalsy : yearIsFalsy (format_year_value paper) = false := by
    rw [Bool.eq_false_iff]
    intro hc
    have := (format_paper_for_yaml_none_iff paper vm am).mpr hc
    rw [h] at this
    exact Option.some_ne_none _ this
  have hy : ((format_year_value paper).getD 0) = y := by
    simp only [format_paper_for_yaml, hfalsy] at h
    simp only [Bool.false_eq_true, if_false] at h
    exact congrArg Prod.snd (Option.some.inj h)
  rcases hval : format_year_value paper with _ | v
  · rw [hval] at hfalsy
    simp [yearIsFalsy] at hfalsy
  · rw [hval] at hfalsy hy
    simp only [yearIsFalsy] at hfalsy
    have hv : ¬(v = 0) := by simpa using hfalsy
    simp only [Option.getD_some] at hy
    subst hy
    exact ⟨rfl, hv⟩

/-- C6 counterexample: a paper whose only year source is the raw year
field holding 0 is dropped by format_paper_for_yaml, although the claimed
resolution order yields the year 0 from the raw year field. -/
theorem format_paper_year_zero_dropped :
    format_paper_for_yaml { title := some (("A").toList), year := some 0 } [] [] = none
    ∧ claimed_resolved_year { title := some (("A").toList), year := some 0 } = some 0 :=
  ⟨rfl, rfl⟩

/-- C6 amended: format_paper_for_yaml resolves the year by parsing
publicationDate first and falling back to the raw year field, and it drops
the paper exactly when that resolution yields no year or the Python-falsy
year 0 (a raw year field of 0 is treated as absent). -/
theorem format_paper_year_resolution (paper : Paper) (vm am : List (Str × Str)) :
    (format_paper_for_yaml paper vm am = none
      ↔ (claimed_resolved_year paper = none ∨ claimed_resolved_year paper = some 0))
    ∧ ∀ fp y, format_paper_for_yaml paper vm am = some (fp, y) →
        claimed_resolved_year paper = some y := by
  rw [claimed_resolved_year_eq]
  constructor
  · rw [format_paper_for_yaml_none_iff]
    cases hy : year_from_publication_date paper with
    | some v =>
      have h1 := year_from_publication_date_pos paper v hy
      have hv : ¬(v = 0) := by omega
      simp [format_year_value, hy, yearIsFalsy, hv]
    | none =>
      cases hpy : paper.year with
      | none => simp [format_year_value, hy, hpy, yearIsFalsy]
      | some w =>
        by_cases hw : w = 0
        · subst hw
          simp [format_year_value, hy, hpy, yearIsFalsy]
        · simp [format_year_value, hy, hpy, yearIsFalsy, hw]
  · intro fp y h
    obtain ⟨hval, hy0⟩ := format_paper_for_yaml_some_year paper vm am fp y h
    rw [format_year_value] at hval
    cases hyd : year_from_publication_date paper with
    | some v =>
      rw [hyd] at hval
      have h1 := year_from_publication_date_pos paper v hyd
      have hfalse : yearIsFalsy (some v) = false := by
        simp only [yearIsFalsy]
        simp only [beq_eq_false_iff_ne, ne_eq]
        omega
      rw [hfalse] at hval
      simp only [Bool.false_and, Bool.false_eq_true, if_false] at hval
      simpa using hval
    | none =>
      rw [hyd] at hval
      have htrue : yearIsFalsy (none : Option Int) = true := rfl
      rw [htrue] at hval
      simp only [Bool.true_and] at hval
      by_cases hf : yearIsFalsy paper.year = true
      · rw [hf] at hval
        simp at hval
      · rw [Bool.not_eq_true] at hf
        rw [hf] at hval
        simp only [Bool.not_false, if_pos] at hval
        simpa using hval

/-- Witness for the amended C6 theorem: a paper with a parsable
publicationDate and a conflicting raw year field keeps the parsed year. -/
theorem format_paper_year_resolution_witness :
    claimed_resolved_year
      { title := some (("A").toList),
        publicationDate := some (("2015-06-01").toList),
        year := some 2014,
        authors := some (.flist [.adict (some (("Jane Doe").toList))]) } = some 2015 := by
  apply (format_paper_year_resolution _ [] []).2
    { title := some (("A").toList),
      authors := some (.fstr (("Jane Doe").toList)),
      venue := none, pdf := none, show_ := some true }
  decide

/-! ## Dict and sorting lemmas -/

lemma dictMem_iff_mem_keys (d : List (Int × List Paper)) (k : Int) :
    dictMem d k = true ↔ k ∈ dictKeys d := by
  simp [dictMem, dictKeys, List.any_eq_true, List.mem_map]

lemma dictSet_not_mem (d : List (Int × List Paper)) (k : Int) (v : List Paper)
    (h : dictMem d k = false) : dictSet d k v = d ++ [(k, v)] := by
  simp [dictSet, h]

lemma dictMem_append (d1 d2 : List (Int × List Paper)) (k : Int) :
    dictMem (d1 ++ d2) k = (dictMem d1 k || dictMem d2 k) := by
  simp [dictMem, List.any_append]

lemma dictKeys_append (d1 d2 : List (Int × List Paper)) :
    dictKeys (d1 ++ d2) = dictKeys d1 ++ dictKeys d2 := by
  simp [dictKeys]

lemma dictKeys_dictSet_mem (d : List (Int × List Paper)) (k : Int) (v : List Paper)
    (h : dictMem d k = true) : dictKeys (dictSet d k v) = dictKeys d := by
  simp only [dictSet, h, if_pos]
  unfold dictKeys
  rw [List.map_map]
  apply List.map_congr_left
  intro e he
  by_cases hek : e.1 = k
  · simp [hek]
  · simp [hek]

lemma dictKeys_dictSet_not_mem (d : List (Int × List Paper)) (k : Int) (v : List Paper)
    (h : dictMem d k = false) : dictKeys (dictSet d k v) = dictKeys d ++ [k] := by
  rw [dictSet_not_mem d k v h, dictKeys_append]
  rfl

lemma nodup_dictKeys_dictSet (d : List (Int × List Paper)) (k : Int) (v : List Paper)
    (h : (dictKeys d).Nodup) : (dictKeys (dictSet d k v)).Nodup := by
  by_cases hm : dictMem d k = true
  · rw [dictKeys_dictSet_mem d k v hm]
    exact h
  · rw [dictKeys_dictSet_not_mem d k v (Bool.eq_false_iff.mpr hm)]
    rw [List.nodup_append]
    refine ⟨h, List.nodup_singleton k, ?_⟩
    intro a ha hb
    rw [List.mem_singleton] at hb
    subst hb
    exact hm ((dictMem_iff_mem_keys d a).mpr ha)

lemma dictGet?_cons_hit (e : Int × List Paper) (d : List (Int × List Paper)) (k : Int)
    (h : e.1 = k) : dictGet? (e :: d) k = some e.2 := by
  simp [dictGet?, List.find?_cons, h]

lemma dictGet?_cons_miss (e : Int × List Paper) (d : List (Int × List Paper)) (k : Int)
    (h : e.1 ≠ k) : dictGet? (e :: d) k = dictGet? d k := by
  simp [dictGet?, List.find?_cons, h]

lemma sortedDesc_eq_self (l : List Int) (h : List.Chain' (fun a b => a > b) l) :
    sortedDesc l = l := by
  apply List.Sorted.insertionSort_eq
  have hp : l.Pairwise (fun a b => a > b) := List.chain'_iff_pairwise.mp h
  exact hp.imp (fun hab => le_of_lt hab)

lemma chain'_gt_sortedDesc (l : List Int) (hnd : l.Nodup) :
    List.Chain' (fun a b => a > b) (sortedDesc l) := by
  have hs : List.Sorted (fun a b => a ≥ b) (sortedDesc l) :=
    List.sorted_insertionSort _ l
  have hperm : List.Perm (sortedDesc l) l := List.perm_insertionSort _ l
  have hnd2 : (sortedDesc l).Nodup := hperm.nodup_iff.mpr hnd
  have hp : (sortedDesc l).Pairwise (fun a b => a > b) := by
    have hcomb := List.Pairwise.and hs hnd2
    exact hcomb.imp (fun hab => lt_of_le_of_ne hab.1 (Ne.symm hab.2))
  exact hp.chain'

/-! ## C3: merging an empty batch -/

/-- C3 counterexample: on a dataset whose year groups are not already
sorted descending, merging the empty batch re-sorts them, so the dataset
is not returned unchanged. -/
theorem merge_empty_not_identity :
    merge_new_papers [⟨2020, []⟩, ⟨2021, []⟩] [] [] []
      ≠ ([⟨2020, []⟩, ⟨2021, []⟩], 0) := by
  decide

lemma buildByYear_fresh (gs : List YearGroup) (d : List (Int × List Paper))
    (hfresh : ∀ g ∈ gs, dictMem d g.year = false)
    (hnd : (gs.map (fun g => g.year)).Pairwise (fun a b => a ≠ b)) :
    gs.foldl (fun d yd => dictSet d yd.year yd.papers) d
      = d ++ gs.map (fun g => (g.year, g.papers)) := by
  induction gs generalizing d with
  | nil => simp
  | cons g gs ih =>
    have hg : dictMem d g.year = false := hfresh g (List.mem_cons_self g gs)
    rw [List.foldl_cons, dictSet_not_mem d g.year g.papers hg]
    rw [List.map_cons, List.pairwise_cons] at hnd
    have hstep := ih (d ++ [(g.year, g.papers)]) ?_ hnd.2
    · rw [hstep, List.map_cons]
      simp
    · intro g' hg'
      rw [dictMem_append]
      have h1 : dictMem d g'.year = false := hfresh g' (List.mem_cons_of_mem g hg')
      have h2 : dictMem [(g.year, g.papers)] g'.year = false := by
        have hne := hnd.1 g'.year (List.mem_map_of_mem (fun g => g.year) hg')
        simpa [dictMem] using hne
      rw [h1, h2]
      rfl

lemma mapback_eq (gs : List YearGroup)
    (hnd : (gs.map (fun g => g.year)).Pairwise (fun a b => a ≠ b)) :
    (gs.map (fun g => g.year)).map
        (fun year => YearGroup.mk year
          ((dictGet? (gs.map (fun g => (g.year, g.papers))) year).getD []))
      = gs := by
  induction gs with
  | nil => rfl
  | cons g gs ih =>
    rw [List.map_cons, List.pairwise_cons] at hnd
    rw [List.map_cons, List.map_cons, List.map_cons]
    congr 1
    · rw [dictGet?_cons_hit _ _ _ rfl]
      rfl
    · have hcongr : ∀ y ∈ gs.map (fun g => g.year),
          YearGroup.mk y ((dictGet? ((g.year, g.papers) :: gs.map (fun g => (g.year, g.papers))) y).getD [])
            = YearGroup.mk y ((dictGet? (gs.map (fun g => (g.year, g.papers))) y).getD []) := by
        intro y hy
        rw [dictGet?_cons_miss _ _ _ (hnd.1 y hy)]
      rw [List.map_congr_left hcongr]
      exact ih hnd.2

/-- C3 amended: on a dataset whose year keys are strictly descending (the
invariant all persisted datasets satisfy), merging an empty batch returns
the dataset unchanged with an addition count of 0. -/
theorem merge_empty_identity (existing : List YearGroup) (vm am : List (Str × Str))
    (hsorted : List.Chain' (fun a b => a > b) (existing.map (fun g => g.year))) :
    merge_new_papers existing [] vm am = (existing, 0) := by
  have hnd : (existing.map (fun g => g.year)).Pairwise (fun a b => a ≠ b) :=
    (List.chain'_iff_pairwise.mp hsorted).imp (fun hab => ne_of_gt hab)
  simp only [merge_new_papers]
  rw [List.foldl_nil]
  have hbuild : buildByYear existing = existing.map (fun g => (g.year, g.papers)) := by
    unfold buildByYear
    have := buildByYear_fresh existing [] (fun g _ => rfl) hnd
    simpa using this
  rw [hbuild]
  have hkeys : dictKeys (existing.map (fun g => (g.year, g.papers)))
      = existing.map (fun g => g.year) := by
    simp [dictKeys]
  rw [hkeys, sortedDesc_eq_self _ hsorted, mapback_eq existing hnd]

/-- Witness for the amended C3 theorem on a concrete sorted dataset. -/
theorem merge_empty_identity_witness :
    merge_new_papers
        [⟨2021, [{ title := some (("A").toList) }]⟩, ⟨2020, []⟩] [] [] []
      = ([⟨2021, [{ title := some (("A").toList) }]⟩, ⟨2020, []⟩], 0) :=
  merge_empty_identity _ [] [] (by
    simp only [List.map_cons, List.map_nil]
    exact List.chain'_cons.mpr ⟨by decide, List.chain'_singleton _⟩)

/-! ## format_papers_for_yaml (src/get_papers.py) -/

/-- The per-paper body of the format_papers_for_yaml loop: skip papers
without a resolvable year (the year code is identical to the merge
variant), then build the formatted entry (no show key in this variant) and
append it to the year bucket, created when absent. -/
def format_papers_step (venue_mapping author_name_mapping : List (Str × Str))
    (d : List (Int × List Paper)) (paper : Paper) : List (Int × List Paper) :=
  if yearIsFalsy (format_year_value paper) then d
  else
    let year := (format_year_value paper).getD 0
    let d1 := if dictMem d year then d else dictSet d year []
    let venue :=
      if (paper.venue).getD [] ≠ [] then (paper.venue).getD []
      else (paper.publicationVenue).getD []
    let mapped_venue : Option Str :=
      if venue ≠ [] ∧ venue ≠ ("null").toList then
        some (strMapGetD venue_mapping venue venue)
      else none
    let authors_list :=
      formatAuthorsList author_name_mapping ((paper.authors).getD (.flist []))
    let authorsStr : Str :=
      if authors_list = [] then [] else List.intercalate ((", ").toList) authors_list
    let pdf_url : Option Str :=
      if (paper.openAccessPdfUrl).getD [] ≠ [] then some ((paper.openAccessPdfUrl).getD [])
      else if (paper.url).getD [] ≠ [] then
        (if ((".pdf").toList).isSuffixOf ((paper.url).getD [])
            || pyContainsSub ((paper.url).getD []) (("arxiv.org/pdf").toList) then
          some ((paper.url).getD [])
        else none)
      else none
    dictSet d1 year ((dictGet? d1 year).getD []
      ++ [{ title := some ((paper.title).getD []),
            authors := some (.fstr authorsStr),
            venue := mapped_venue,
            pdf := pdf_url }])

/-- format_papers_for_yaml: group the formatted papers by year and emit
the groups sorted by year descending. -/
def format_papers_for_yaml (papers : List Paper)
    (venue_mapping author_name_mapping : List (Str × Str)) : List YearGroup :=
  let d := papers.foldl (format_papers_step venue_mapping author_name_mapping) []
  (sortedDesc (dictKeys d)).map
    (fun year => YearGroup.mk year ((dictGet? d year).getD []))

/-! ## C4: output year keys are strictly descending -/

lemma nodup_dictKeys_bucket (d : List (Int × List Paper)) (k : Int) (w : List Paper)
    (h : (dictKeys d).Nodup) :
    (dictKeys (dictSet (if dictMem d k then d else dictSet d k []) k w)).Nodup := by
  apply nodup_dictKeys_dictSet
  by_cases hm : dictMem d k = true
  · simpa [hm] using h
  · rw [if_neg (by simp [hm])]
    exact nodup_dictKeys_dictSet d k [] h

lemma nodup_dictKeys_mergeStep (vm am : List (Str × Str)) (hidden : List Str)
    (st : List (Int × List Paper) × List Str × Nat) (p : Paper)
    (h : (dictKeys st.1).Nodup) :
    (dictKeys (mergeStep vm am hidden st p).1).Nodup := by
  rcases hfmt : format_paper_for_yaml p vm am with _ | ⟨fp, y⟩
  · simpa [mergeStep, hfmt] using h
  · by_cases hskip : create_paper_signature fp ∈ st.2.1 ∨ create_paper_signature fp ∈ hidden
    · simpa [mergeStep, hfmt, hskip] using h
    · simp only [mergeStep, hfmt, hskip, if_neg, if_false]
      exact nodup_dictKeys_bucket st.1 y _ h

lemma nodup_dictKeys_foldl_mergeStep (vm am : List (Str × Str)) (hidden : List Str)
    (papers : List Paper) (st : List (Int × List Paper) × List Str × Nat)
    (h : (dictKeys st.1).Nodup) :
    (dictKeys (papers.foldl (mergeStep vm am hidden) st).1).Nodup := by
  induction papers generalizing st with
  | nil => exact h
  | cons p ps ih =>
    rw [List.foldl_cons]
    exact ih _ (nodup_dictKeys_mergeStep vm am hidden st p h)

lemma nodup_dictKeys_formatStep (vm am : List (Str × Str))
    (d : List (Int × List Paper)) (p : Paper) (h : (dictKeys d).Nodup) :
    (dictKeys (format_papers_step vm am d p)).Nodup := by
  by_cases hy : yearIsFalsy (format_year_value p) = true
  · simpa [format_papers_step, hy] using h
  · simp only [format_papers_step, hy, Bool.false_eq_true, if_false]
    exact nodup_dictKeys_bucket d _ _ h

lemma nodup_dictKeys_foldl_formatStep (vm am : List (Str × Str))
    (papers : List Paper) (d : List (Int × List Paper)) (h : (dictKeys d).Nodup) :
    (dictKeys (papers.foldl (format_papers_step vm am) d)).Nodup := by
  induction papers generalizing d with
  | nil => exact h
  | cons p ps ih =>
    rw [List.foldl_cons]
    exact ih _ (nodup_dictKeys_formatStep vm am d p h)

lemma nodup_dictKeys_foldl_dictSet (gs : List YearGroup) (d : List (Int × List Paper))
    (h : (dictKeys d).Nodup) :
    (dictKeys (gs.foldl (fun d yd => dictSet d yd.year yd.papers) d)).Nodup := by
  induction gs generalizing d with
  | nil => exact h
  | cons g gs ih =>
    rw [List.foldl_cons]
    exact ih _ (nodup_dictKeys_dictSet d g.year g.papers h)

lemma nodup_dictKeys_buildByYear (gs : List YearGroup) :
    (dictKeys (buildByYear gs)).Nodup := by
  unfold buildByYear
  exact nodup_dictKeys_foldl_dictSet gs [] List.nodup_nil

lemma chain'_map_year_of_nodup (d : List (Int × List Paper))
    (h : (dictKeys d).Nodup) :
    List.Chain' (fun a b => a > b)
      (((sortedDesc (dictKeys d)).map
        (fun year => YearGroup.mk year ((dictGet? d year).getD []))).map
          (fun g => g.year)) := by
  rw [List.map_map]
  have heq : ((fun g => g.year)
      ∘ (fun year => YearGroup.mk year ((dictGet? d year).getD [])))
      = fun year => year := rfl
  rw [heq]
  have hid : (sortedDesc (dictKeys d)).map (fun year => year)
      = sortedDesc (dictKeys d) := List.map_id' _
  rw [hid]
  exact chain'_gt_sortedDesc _ h

/-- C4: every dataset produced by merge_new_papers, and every dataset
produced by format_papers_for_yaml, lists its year groups with strictly
descending year keys, hence with no duplicate year key. -/
theorem output_years_strictly_descending :
    (∀ (existing : List YearGroup) (new_papers : List Paper) (vm am : List (Str × Str)),
      List.Chain' (fun a b => a > b)
        ((merge_new_papers existing new_papers vm am).1.map (fun g => g.year)))
    ∧ (∀ (papers : List Paper) (vm am : List (Str × Str)),
      List.Chain' (fun a b => a > b)
        ((format_papers_for_yaml papers vm am).map (fun g => g.year))) := by
  constructor
  · intro existing new_papers vm am
    simp only [merge_new_papers]
    apply chain'_map_year_of_nodup
    exact nodup_dictKeys_foldl_mergeStep vm am _ new_papers _
      (nodup_dictKeys_buildByYear existing)
  · intro papers vm am
    simp only [format_papers_for_yaml]
    apply chain'_map_year_of_nodup
    exact nodup_dictKeys_foldl_formatStep vm am papers [] List.nodup_nil

/-! ## C1: hidden papers are never re-added -/

/-- The number of papers in a list whose signature equals s. -/
def sigCountPapers (ps : List Paper) (s : Str) : Nat :=
  (ps.filter (fun p => create_paper_signature p == s)).length

/-- The number of papers stored in a year dict whose signature equals s. -/
def sigCountDict (d : List (Int × List Paper)) (s : Str) : Nat :=
  (d.map (fun e => sigCountPapers e.2 s)).sum

/-- The number of papers in a dataset whose signature equals s. -/
def sigCountData (gs : List YearGroup) (s : Str) : Nat :=
  (gs.map (fun g => sigCountPapers g.papers s)).sum

lemma sigCountPapers_nil (s : Str) : sigCountPapers [] s = 0 := rfl

lemma sigCountPapers_cons (q : Paper) (l : List Paper) (s : Str) :
    sigCountPapers (q :: l) s
      = (if (create_paper_signature q == s) = true then 1 else 0) + sigCountPapers l s := by
  simp only [sigCountPapers, List.filter_cons]
  split
  · simp [Nat.add_comm]
  · simp

lemma sigCountPapers_append (l1 l2 : List Paper) (s : Str) :
    sigCountPapers (l1 ++ l2) s = sigCountPapers l1 s + sigCountPapers l2 s := by
  simp [sigCountPapers, List.filter_append]

lemma sigCountPapers_eq_zero (l : List Paper) (s : Str)
    (h : ∀ q ∈ l, create_paper_signature q ≠ s) : sigCountPapers l s = 0 := by
  simp only [sigCountPapers, List.length_eq_zero]
  rw [List.filter_eq_nil]
  intro q hq
  simpa using h q hq

lemma sigCountDict_append (d1 d2 : List (Int × List Paper)) (s : Str) :
    sigCountDict (d1 ++ d2) s = sigCountDict d1 s + sigCountDict d2 s := by
  simp [sigCountDict]

lemma sigCountData_cons (g : YearGroup) (gs : List YearGroup) (s : Str) :
    sigCountData (g :: gs) s = sigCountPapers g.papers s + sigCountData gs s := by
  simp [sigCountData]

lemma create_paper_signature_ne_nil (p : Paper) : create_paper_signature p ≠ [] := by
  simp [create_paper_signature]

lemma mem_setAdd_self (s : List Str) (x : Str) : x ∈ setAdd s x := by
  unfold setAdd
  split
  · assumption
  · exact List.mem_cons_self x s

lemma mem_setAdd_of_mem (s : List Str) (x y : Str) (h : y ∈ s) : y ∈ setAdd s x := by
  unfold setAdd
  split
  · exact h
  · exact List.mem_cons_of_mem x h

lemma mem_addPaperSignature_self (acc : List Str) (p : Paper) :
    create_paper_signature p ∈ addPaperSignature acc p := by
  simp only [addPaperSignature]
  rw [if_pos (create_paper_signature_ne_nil p)]
  exact mem_setAdd_self acc _

lemma mem_addPaperSignature_of_mem (acc : List Str) (p : Paper) (x : Str)
    (h : x ∈ acc) : x ∈ addPaperSignature acc p := by
  simp only [addPaperSignature]
  split
  · exact mem_setAdd_of_mem acc _ x h
  · exact h

lemma mem_addHiddenSignature_of_mem (acc : List Str) (p : Paper) (x : Str)
    (h : x ∈ acc) : x ∈ addHiddenSignature acc p := by
  unfold addHiddenSignature
  split
  · exact mem_addPaperSignature_of_mem acc p x h
  · exact h

lemma mem_foldl_addHidden_of_mem (ps : List Paper) (acc : List Str) (x : Str)
    (h : x ∈ acc) : x ∈ ps.foldl addHiddenSignature acc := by
  induction ps generalizing acc with
  | nil => exact h
  | cons q qs ih =>
    rw [List.foldl_cons]
    exact ih _ (mem_addHiddenSignature_of_mem acc q x h)

lemma mem_foldl_addHidden_self (ps : List Paper) (acc : List Str) (p : Paper)
    (hp : p ∈ ps) (hs : p.show_ = some false) :
    create_paper_signature p ∈ ps.foldl addHiddenSignature acc := by
  induction ps generalizing acc with
  | nil => simp at hp
  | cons q qs ih =>
    rw [List.foldl_cons]
    rcases List.mem_cons.mp hp with rfl | hp2
    · apply mem_foldl_addHidden_of_mem
      unfold addHiddenSignature
      rw [if_pos (by simp [hs])]
      exact mem_addPaperSignature_self acc p
    · exact ih _ hp2

lemma mem_foldl_hiddenOuter_of_mem (gs : List YearGroup) (acc : List Str) (x : Str)
    (h : x ∈ acc) :
    x ∈ gs.foldl (fun acc yd => yd.papers.foldl addHiddenSignature acc) acc := by
  induction gs generalizing acc with
  | nil => exact h
  | cons g gs ih =>
    rw [List.foldl_cons]
    exact ih _ (mem_foldl_addHidden_of_mem g.papers acc x h)

lemma mem_foldl_hiddenOuter_self (gs : List YearGroup) (acc : List Str)
    (g : YearGroup) (p : Paper) (hg : g ∈ gs) (hp : p ∈ g.papers)
    (hs : p.show_ = some false) :
    create_paper_signature p
      ∈ gs.foldl (fun acc yd => yd.papers.foldl addHiddenSignature acc) acc := by
  induction gs generalizing acc with
  | nil => simp at hg
  | cons g0 gs ih =>
    rw [List.foldl_cons]
    rcases List.mem_cons.mp hg with rfl | hg2
    · exact mem_foldl_hiddenOuter_of_mem gs _ _
        (mem_foldl_addHidden_self g.papers acc p hp hs)
    · exact ih _ hg2

lemma mem_hidden_signatures (gs : List YearGroup) (g : YearGroup) (p : Paper)
    (hg : g ∈ gs) (hp : p ∈ g.papers) (hs : p.show_ = some false) :
    create_paper_signature p ∈ hidden_signatures gs :=
  mem_foldl_hiddenOuter_self gs [] g p hg hp hs

lemma map_dictSet_id (d : List (Int × List Paper)) (k : Int) (v : List Paper)
    (h : k ∉ dictKeys d) :
    d.map (fun e => if e.1 == k then (k, v) else e) = d := by
  induction d with
  | nil => rfl
  | cons e d ih =>
    rw [dictKeys, List.map_cons, List.mem_cons] at h
    push_neg at h
    rw [List.map_cons, if_neg (by simpa using (Ne.symm h.1)), ih (by simpa [dictKeys] using h.2)]

lemma dictSet_cons_hit (e : Int × List Paper) (d : List (Int × List Paper)) (k : Int)
    (v : List Paper) (hek : e.1 = k) (hknotin : k ∉ dictKeys d) :
    dictSet (e :: d) k v = (k, v) :: d := by
  have hm : dictMem (e :: d) k = true := by simp [dictMem, hek]
  simp only [dictSet, hm, if_pos, List.map_cons]
  rw [if_pos (by simpa using hek), map_dictSet_id d k v hknotin]

lemma dictSet_cons_miss (e : Int × List Paper) (d : List (Int × List Paper)) (k : Int)
    (v : List Paper) (hek : e.1 ≠ k) (hm : dictMem d k = true) :
    dictSet (e :: d) k v = e :: dictSet d k v := by
  have hm2 : dictMem (e :: d) k = true := by
    simp only [dictMem, List.any_cons, Bool.or_eq_true]
    right
    simpa [dictMem] using hm
  simp only [dictSet, hm, hm2, if_pos, List.map_cons]
  rw [if_neg (by simpa using hek)]

lemma sigCountDict_dictSet_of_mem (d : List (Int × List Paper)) (k : Int)
    (v : List Paper) (s : Str) (hnd : (dictKeys d).Nodup) (hm : dictMem d k = true) :
    sigCountDict (dictSet d k v) s + sigCountPapers ((dictGet? d k).getD []) s
      = sigCountDict d s + sigCountPapers v s := by
  induction d with
  | nil => simp [dictMem] at hm
  | cons e d ih =>
    rw [dictKeys, List.map_cons, List.nodup_cons] at hnd
    by_cases hek : e.1 = k
    · have hknotin : k ∉ dictKeys d := by rw [← hek]; exact hnd.1
      rw [dictSet_cons_hit e d k v hek hknotin, dictGet?_cons_hit e d k hek]
      simp only [sigCountDict, List.map_cons, List.sum_cons, Option.getD_some]
      omega
    · have hmd : dictMem d k = true := by
        have hm2 := hm
        simp only [dictMem, List.any_cons, Bool.or_eq_true] at hm2
        rcases hm2 with h1 | h2
        · exact absurd (beq_iff_eq.mp h1) hek
        · simpa [dictMem] using h2
      rw [dictSet_cons_miss e d k v hek hmd, dictGet?_cons_miss e d k hek]
      have hih := ih (by simpa [dictKeys] using hnd.2) hmd
      simp only [sigCountDict, List.map_cons, List.sum_cons]
      simp only [sigCountDict] at hih
      omega

lemma sigCountDict_dictSet_le (d : List (Int × List Paper)) (k : Int)
    (v : List Paper) (s : Str) (hnd : (dictKeys d).Nodup) :
    sigCountDict (dictSet d k v) s ≤ sigCountDict d s + sigCountPapers v s := by
  by_cases hm : dictMem d k = true
  · have := sigCountDict_dictSet_of_mem d k v s hnd hm
    omega
  · rw [dictSet_not_mem d k v (Bool.eq_false_iff.mpr hm), sigCountDict_append]
    simp [sigCountDict]

lemma dictGet?_append_not_mem (d : List (Int × List Paper)) (e : Int × List Paper)
    (k : Int) (hm : dictMem d k = false) :
    dictGet? (d ++ [e]) k = dictGet? [e] k := by
  induction d with
  | nil => rfl
  | cons f d ih =>
    rw [dictMem, List.any_cons, Bool.or_eq_false_iff] at hm
    rw [List.cons_append, dictGet?_cons_miss _ _ _ (by simpa using hm.1)]
    exact ih (by simpa [dictMem] using hm.2)

lemma sigCountDict_push (d : List (Int × List Paper)) (k : Int) (p : Paper) (s : Str)
    (hnd : (dictKeys d).Nodup) :
    sigCountDict (dictSet (if dictMem d k then d else dictSet d k [])
        k ((dictGet? (if dictMem d k then d else dictSet d k []) k).getD [] ++ [p])) s
      = sigCountDict d s + sigCountPapers [p] s := by
  by_cases hm : dictMem d k = true
  · rw [if_pos hm]
    have heq := sigCountDict_dictSet_of_mem d k
      ((dictGet? d k).getD [] ++ [p]) s hnd hm
    rw [sigCountPapers_append] at heq
    omega
  · rw [if_neg (by simp [hm])]
    have hd1 : dictSet d k [] = d ++ [(k, [])] :=
      dictSet_not_mem d k [] (Bool.eq_false_iff.mpr hm)
    have hnd1 : (dictKeys (dictSet d k [])).Nodup := nodup_dictKeys_dictSet d k [] hnd
    have hm1 : dictMem (dictSet d k []) k = true := by
      rw [dictMem_iff_mem_keys,
        dictKeys_dictSet_not_mem d k [] (Bool.eq_false_iff.mpr hm)]
      simp
    have hget : dictGet? (dictSet d k []) k = some [] := by
      rw [hd1, dictGet?_append_not_mem d (k, []) k (Bool.eq_false_iff.mpr hm)]
      exact dictGet?_cons_hit (k, []) [] k rfl
    rw [hget]
    simp only [Option.getD_some, List.nil_append]
    have heq := sigCountDict_dictSet_of_mem (dictSet d k []) k [p] s hnd1 hm1
    rw [hget] at heq
    have hcd1 : sigCountDict (dictSet d k []) s = sigCountDict d s := by
      rw [hd1, sigCountDict_append]
      simp [sigCountDict, sigCountPapers]
    rw [hcd1] at heq
    simp only [Option.getD_some, sigCountPapers_nil] at heq
    omega

lemma sigCountDict_buildfold (gs : List YearGroup) (d : List (Int × List Paper))
    (s : Str) (hnd : (dictKeys d).Nodup) :
    sigCountDict (gs.foldl (fun d yd => dictSet d yd.year yd.papers) d) s
      ≤ sigCountDict d s + sigCountData gs s := by
  induction gs generalizing d with
  | nil => simp [sigCountData]
  | cons g gs ih =>
    rw [List.foldl_cons, sigCountData_cons]
    have h1 := ih (dictSet d g.year g.papers) (nodup_dictKeys_dictSet d g.year g.papers hnd)
    have h2 := sigCountDict_dictSet_le d g.year g.papers s hnd
    omega

lemma sigCountDict_buildByYear_le (gs : List YearGroup) (s : Str) :
    sigCountDict (buildByYear gs) s ≤ sigCountData gs s := by
  have := sigCountDict_buildfold gs [] s List.nodup_nil
  simpa [sigCountDict] using this

lemma sigCountSum_keys (d : List (Int × List Paper)) (s : Str)
    (hnd : (dictKeys d).Nodup) :
    ((dictKeys d).map (fun y => sigCountPapers ((dictGet? d y).getD []) s)).sum
      = sigCountDict d s := by
  induction d with
  | nil => rfl
  | cons e d ih =>
    rw [dictKeys, List.map_cons] at hnd
    rw [List.nodup_cons] at hnd
    rw [dictKeys, List.map_cons, List.map_cons, List.sum_cons]
    rw [dictGet?_cons_hit e d e.1 rfl]
    have hcongr : ∀ y ∈ d.map (fun e => e.1),
        sigCountPapers ((dictGet? (e :: d) y).getD []) s
          = sigCountPapers ((dictGet? d y).getD []) s := by
      intro y hy
      rw [dictGet?_cons_miss e d y (fun hc => hnd.1 (hc ▸ hy))]
    rw [List.map_congr_left hcongr]
    have hih := ih (by simpa [dictKeys] using hnd.2)
    rw [dictKeys] at hih
    rw [hih]
    simp [sigCountDict]

lemma sigCountData_mapback (d : List (Int × List Paper)) (s : Str)
    (hnd : (dictKeys d).Nodup) :
    sigCountData ((sortedDesc (dictKeys d)).map
        (fun year => YearGroup.mk year ((dictGet? d year).getD []))) s
      = sigCountDict d s := by
  unfold sigCountData
  rw [List.map_map]
  have heq : ((fun g => sigCountPapers g.papers s)
      ∘ (fun year => YearGroup.mk year ((dictGet? d year).getD [])))
      = fun y => sigCountPapers ((dictGet? d y).getD []) s := rfl
  rw [heq]
  have hperm : List.Perm (sortedDesc (dictKeys d)) (dictKeys d) :=
    List.perm_insertionSort _ _
  have hsum :=
    (hperm.map (fun y => sigCountPapers ((dictGet? d y).getD []) s)).sum_eq
  rw [hsum, sigCountSum_keys d s hnd]

lemma foldl_mergeStep_added (vm am : List (Str × Str)) (hidden : List Str) (s : Str)
    (hs : s ∈ hidden) (papers : List Paper) :
    ∀ (st : List (Int × List Paper) × List Str × Nat), (dictKeys st.1).Nodup →
      ∃ added : List Paper,
        (papers.foldl (mergeStep vm am hidden) st).2.2 = st.2.2 + added.length
        ∧ (∀ q ∈ added, create_paper_signature q ∉ hidden)
        ∧ sigCountDict (papers.foldl (mergeStep vm am hidden) st).1 s
            = sigCountDict st.1 s + sigCountPapers added s := by
  induction papers with
  | nil =>
    intro st hnd
    exact ⟨[], by simp, by simp, by simp [sigCountPapers]⟩
  | cons p ps ih =>
    intro st hnd
    rw [List.foldl_cons]
    rcases hfmt : format_paper_for_yaml p vm am with _ | ⟨fp, y⟩
    · have hstep : mergeStep vm am hidden st p = st := by
        simp [mergeStep, hfmt]
      rw [hstep]
      exact ih st hnd
    · by_cases hskip : create_paper_signature fp ∈ st.2.1 ∨ create_paper_signature fp ∈ hidden
      · have hstep : mergeStep vm am hidden st p = st := by
          simp [mergeStep, hfmt, hskip]
        rw [hstep]
        exact ih st hnd
      · have hstep : mergeStep vm am hidden st p
            = (dictSet (if dictMem st.1 y then st.1 else dictSet st.1 y []) y
                 ((dictGet? (if dictMem st.1 y then st.1 else dictSet st.1 y []) y).getD []
                   ++ [fp]),
               setAdd st.2.1 (create_paper_signature fp), st.2.2 + 1) := by
          simp [mergeStep, hfmt, hskip]
        rw [hstep]
        have hnd2 : (dictKeys (dictSet (if dictMem st.1 y then st.1 else dictSet st.1 y []) y
            ((dictGet? (if dictMem st.1 y then st.1 else dictSet st.1 y []) y).getD []
              ++ [fp]))).Nodup := nodup_dictKeys_bucket st.1 y _ hnd
        obtain ⟨added, h1, h2, h3⟩ := ih
          (dictSet (if dictMem st.1 y then st.1 else dictSet st.1 y []) y
             ((dictGet? (if dictMem st.1 y then st.1 else dictSet st.1 y []) y).getD []
               ++ [fp]),
           setAdd st.2.1 (create_paper_signature fp), st.2.2 + 1) hnd2
        dsimp only at h1 h3
        refine ⟨fp :: added, ?_, ?_, ?_⟩
        · rw [h1, List.length_cons]
          omega
        · intro q hq
          rcases List.mem_cons.mp hq with rfl | hq2
          · intro hmem
            exact hskip (Or.inr hmem)
          · exact h2 q hq2
        · rw [h3, sigCountDict_push st.1 y fp s hnd]
          have hne : (create_paper_signature fp == s) = false := by
            rw [beq_eq_false_iff_ne]
            intro hc
            exact hskip (Or.inr (hc ▸ hs))
          simp only [sigCountPapers_cons, hne, Bool.false_eq_true, if_false,
            sigCountPapers_nil]
          omega

/-- C1: when the dataset holds a hidden paper (show exactly false), merging
any fetched batch never re-adds a paper with the hidden paper's signature:
the addition count counts only papers of other signatures, and the number
of stored papers carrying the hidden signature does not grow. -/
theorem merge_never_readds_hidden (existing : List YearGroup) (new_papers : List Paper)
    (vm am : List (Str × Str)) (g : YearGroup) (p : Paper)
    (hg : g ∈ existing) (hp : p ∈ g.papers) (hshow : p.show_ = some false) :
    ∃ added : List Paper,
      (merge_new_papers existing new_papers vm am).2 = added.length
      ∧ (∀ q ∈ added, create_paper_signature q ≠ create_paper_signature p)
      ∧ sigCountData (merge_new_papers existing new_papers vm am).1
            (create_paper_signature p)
          ≤ sigCountData existing (create_paper_signature p) := by
  have hs : create_paper_signature p ∈ hidden_signatures existing :=
    mem_hidden_signatures existing g p hg hp hshow
  obtain ⟨added, h1, h2, h3⟩ := foldl_mergeStep_added vm am (hidden_signatures existing)
    (create_paper_signature p) hs new_papers
    (buildByYear existing, get_existing_paper_signatures existing, 0)
    (nodup_dictKeys_buildByYear existing)
  dsimp only at h1 h3
  refine ⟨added, ?_, ?_, ?_⟩
  · simp only [merge_new_papers]
    rw [h1]
    exact Nat.zero_add _
  · intro q hq hc
    exact h2 q hq (hc ▸ hs)
  · simp only [merge_new_papers]
    rw [sigCountData_mapback _ _ (nodup_dictKeys_foldl_mergeStep vm am _ new_papers _
      (nodup_dictKeys_buildByYear existing)), h3]
    have hzero : sigCountPapers added (create_paper_signature p) = 0 :=
      sigCountPapers_eq_zero added _ (fun q hq hc => h2 q hq (hc ▸ hs))
    have hle := sigCountDict_buildByYear_le existing (create_paper_signature p)
    omega

/-- Witness for C1: a dataset with one hidden paper and a batch returning
the same paper; nothing is added and the hidden signature count stays 1. -/
theorem merge_never_readds_hidden_witness :
    ∃ added : List Paper,
      (merge_new_papers
          [⟨2020, [{ title := some (("Hidden P").toList),
                     authors := some (.fstr (("Jane Doe").toList)),
                     show_ := some false }]⟩]
          [{ title := some (("Hidden P").toList), year := some 2020,
             authors := some (.flist [.adict (some (("Jane Doe").toList))]) }]
          [] []).2 = added.length
      ∧ (∀ q ∈ added, create_paper_signature q ≠ create_paper_signature
          { title := some (("Hidden P").toList),
            authors := some (.fstr (("Jane Doe").toList)),
            show_ := some false })
      ∧ sigCountData
          (merge_new_papers
            [⟨2020, [{ title := some (("Hidden P").toList),
                       authors := some (.fstr (("Jane Doe").toList)),
                       show_ := some false }]⟩]
            [{ title := some (("Hidden P").toList), year := some 2020,
               authors := some (.flist [.adict (some (("Jane Doe").toList))]) }]
            [] []).1
          (create_paper_signature
            { title := some (("Hidden P").toList),
              authors := some (.fstr (("Jane Doe").toList)),
              show_ := some false })
        ≤ sigCountData
            [⟨2020, [{ title := some (("Hidden P").toList),
                       authors := some (.fstr (("Jane Doe").toList)),
                       show_ := some false }]⟩]
            (create_paper_signature
              { title := some (("Hidden P").toList),
                authors := some (.fstr (("Jane Doe").toList)),
                show_ := some false }) :=
  merge_never_readds_hidden _ _ [] [] _ _ (List.mem_cons_self _ _)
    (List.mem_cons_self _ _) rfl
